import Mathlib

/-
Verification development for the RAPIDpy post-processing core:
a shallow embedding of `make_CF_RAPID_output.py`,
`RAPIDpy/inflow/generate_seasonal_averages.py` and `RAPIDpy/rapid.py`,
with theorems settling the stated properties of the CF converter,
the seasonal aggregator and the identifier reindexing primitive.

Numeric flow values are modelled as rationals; timestamps and epoch
offsets as integers; numpy arrays as lists.  Fallible Python code is
modelled with `Except String`.
-/

namespace RAPIDpy

/-! ### numpy-style primitives shared by several functions -/

/-- First index of `x` in `a`, i.e. the Python idiom
`np.where(a == x)[0][0]` (which raises when `x` is absent, modelled
by `none` here and handled at each call site as the source does). -/
def npWhereFirst : List Int → Int → Option Nat
  | [], _ => none
  | a :: tl, x => if a = x then some 0 else (npWhereFirst tl x).map (· + 1)

/-- One dimension of a numpy assignment broadcast: the source extent
must equal the target extent or be 1. -/
def broadcastDimOk (src tgt : Nat) : Bool := src == tgt || src == 1

/-- Column count of a rectangular matrix stored as a list of rows. -/
def colsLen (m : List (List ℚ)) : Nat := (m.headD []).length

/-- Stretch a length-1 row to `k` columns, as numpy broadcasting does;
rows already of length `k` are kept as they are. -/
def broadcastRow (v : List ℚ) (k : Nat) : List ℚ :=
  if v.length == 1 then List.replicate k (v.headD 0) else v

/-- Broadcast a matrix to `n` rows and `k` columns (each dimension must
already satisfy `broadcastDimOk`). -/
def broadcastMat (m : List (List ℚ)) (n k : Nat) : List (List ℚ) :=
  let rows := if m.length == 1 then List.replicate n (m.headD []) else m
  rows.map (fun r => broadcastRow r k)

/-- Ceiling division on integers, `⌈a / b⌉` for `b ≠ 0`. -/
def ceilDivInt (a b : Int) : Int := -((-a).fdiv b)

/-- `np.arange(start, stop, step)` on integers: `⌈(stop-start)/step⌉`
equally spaced values; a zero step is an error in numpy. -/
def npArange (start stop step : Int) : Except String (List Int) :=
  if step = 0 then Except.error "ZeroDivisionError: division by zero"
  else
    Except.ok ((List.range (max 0 (ceilDivInt (stop - start) step)).toNat).map
      (fun k => start + k * step))

/-- Result of an old-numpy elementwise comparison: an array of booleans
when the shapes broadcast, otherwise a scalar. -/
inductive NpCmpResult
  | arr (bs : List Bool)
  | scalar (b : Bool)
deriving DecidableEq

/-- Old-numpy `a != b` on 1-D integer arrays: elementwise when the
lengths match (or one side has length 1), and otherwise the comparison
falls back to object identity yielding the scalar `True`. -/
def npNeqArr (a b : List Int) : NpCmpResult :=
  if a.length = b.length then
    NpCmpResult.arr (List.zipWith (fun x y => decide (x ≠ y)) a b)
  else if a.length = 1 then
    NpCmpResult.arr (b.map (fun y => decide (a.headD 0 ≠ y)))
  else if b.length = 1 then
    NpCmpResult.arr (a.map (fun x => decide (x ≠ b.headD 0)))
  else NpCmpResult.scalar true

/-- `np.unique(c).all()`: for an array, true iff every element is true
(an empty array gives true); for a scalar, the scalar itself. -/
def npUniqueAll : NpCmpResult → Bool
  | NpCmpResult.arr bs => bs.all id
  | NpCmpResult.scalar b => b

/-! ### Seasonal aggregator (`generate_seasonal_averages.py`) -/

/-- Python `calendar.isleap`. -/
def isleapPy (y : Nat) : Bool := (y % 4 == 0 && y % 100 != 0) || (y % 400 == 0)

/-- Days in calendar year `y`. -/
def daysInYear (y : Nat) : Nat := if isleapPy y then 366 else 365

/-- Fuel-driven year walk used to recover the calendar year and the
0-based day within the year from a count of days since 1970-01-01.
The fuel `days + 1` always suffices since every step consumes at least
365 days. -/
def yearFromDaysAux : Nat → Nat → Nat → Nat × Nat
  | 0, y, d => (y, d)
  | Nat.succ fuel, y, d =>
    if d < daysInYear y then (y, d)
    else yearFromDaysAux fuel (y + 1) (d - daysInYear y)

/-- The `(tm_year, tm_yday)` fields of Python `time.gmtime(t)` for a
non-negative epoch offset `t` in seconds (`tm_yday` is 1-based). -/
def gmtimeYearYday (t : Nat) : Nat × Nat :=
  let days := t / 86400
  let p := yearFromDaysAux (days + 1) 1970 days
  (p.1, p.2 + 1)

/-- The message raised when Python code assigns to a field of the
immutable `time.struct_time` returned by `gmtime`. -/
def readonlyAttrMsg : String := "AttributeError: readonly attribute"

/-- The leap adjustment of `generate_single_seasonal_average`
(`generate_seasonal_averages.py` lines 33-37): `var_time = gmtime(t)`;
then, when `isleap(var_time.tm_year) and var_time.tm_yday > 60`, the
code executes `var_time.tm_yday -= 1`.  `struct_time` attributes are
read-only, so that statement raises instead of decrementing; otherwise
the unadjusted day-of-year is used. -/
def adjusted_yday (t : Nat) : Except String Nat :=
  let p := gmtimeYearYday t
  if isleapPy p.1 && decide (p.2 > 60) then Except.error readonlyAttrMsg
  else Except.ok p.2

/-- The per-step window test of `generate_single_seasonal_average`
(lines 27-40): `min_day = day_of_year - 3`, `max_day = day_of_year + 3`,
and the step is selected when `tm_yday >= min_day and tm_yday < max_day`
after the (crashing) leap adjustment. -/
def step_in_window (day_of_year : Nat) (t : Nat) : Except String Bool :=
  let min_day : Int := (day_of_year : Int) - 3
  let max_day : Int := (day_of_year : Int) + 3
  (adjusted_yday t).map
    (fun y => decide (min_day ≤ (y : Int)) && decide ((y : Int) < max_day))

/-- Modelled from the spec's words (§4.3 leap policy): the day-of-year
with leap years past day 60 folded back by one day. -/
def spec_adjusted_yday (t : Nat) : Nat :=
  let p := gmtimeYearYday t
  if isleapPy p.1 && decide (p.2 > 60) then p.2 - 1 else p.2

/-- numpy `store[i] = v` on a 2-D array stored as rows: indexes axis 0,
then broadcasts `v` into the selected row. -/
def np_setrow (store : List (List ℚ)) (i : Nat) (v : List ℚ) :
    Except String (List (List ℚ)) :=
  match store[i]? with
  | none => Except.error "IndexError: index is out of bounds for axis 0"
  | some row =>
    if v.length == row.length || v.length == 1 then
      Except.ok (store.set i (broadcastRow v row.length))
    else Except.error "ValueError: could not broadcast input array"

/-- The write section of `generate_single_seasonal_average`
(lines 50-55): under the lock, the per-identifier mean and standard
deviation arrays are assigned via
`variables['average_flow'][day_of_year-1] = avg_streamflow_array` and
`variables['std_dev_flow'][day_of_year-1] = std_streamflow_array`,
where both variables were declared with dimensions
`('rivid', 'day_of_year')`, i.e. shape (number of rivers, 365). -/
def single_seasonal_write (avgStore stdStore : List (List ℚ))
    (day_of_year : Nat) (avg stdv : List ℚ) :
    Except String (List (List ℚ) × List (List ℚ)) := do
  let a ← np_setrow avgStore (day_of_year - 1) avg
  let s ← np_setrow stdStore (day_of_year - 1) stdv
  Except.ok (a, s)

/-- A freshly created seasonal statistics store: `n` rivers by 365 days. -/
def seasonal_store (n : Nat) : List (List ℚ) :=
  List.replicate n (List.replicate 365 0)

/-- Modelled from the spec's words (§4.3): the statistic of identifier
`i` for day `d` is stored at position `[i, d - 1]`. -/
def spec_seasonal_place (store : List (List ℚ)) (day_of_year : Nat)
    (stat : List ℚ) : List (List ℚ) :=
  store.enum.map (fun p => p.2.set (day_of_year - 1) (stat.getD p.1 0))

/-- Entry `[i, j]` of a matrix stored as rows (0 outside the matrix). -/
def entry (m : List (List ℚ)) (i j : Nat) : ℚ := (m.getD i []).getD j 0

/-! ### CF converter (`make_CF_RAPID_output.py`) -/

/-- The default fill value the freshly created flow variable holds
before any data is written (the concrete netCDF fill constant does not
matter for any property below, only that it is what remains when no
write reaches the file). -/
def qvarFill : ℚ := 0

/-- Models `_copy_streamflow_values` (lines 352-376).  The flow
variable is created with dimensions `(id, time)`, i.e. shape
`(id_len, time_len)`.  The copy statement is
`q_var[:][1:] = raw_nc.variables[flow][:].transpose()`:
`q_var[:]` first reads the variable into a fresh in-memory array, so
the slice assignment targets rows `1..` (the identifier axis) of that
copy; broadcasting must fit the transposed raw matrix into shape
`(id_len - 1, time_len)` or a `ValueError` is raised.  The subsequent
initial-flow loop likewise executes `q_var[index][0] = ...`, writing
into per-row copies.  None of these writes reaches the stored
variable, which is returned unchanged on the non-raising path. -/
def copy_streamflow_values (id_len time_len : Nat)
    (rawFlow : List (List ℚ)) (qinitVals : Option (List ℚ)) :
    Except String (List (List ℚ)) :=
  let qvarFile := List.replicate id_len (List.replicate time_len qvarFill)
  let qcopy := qvarFile
  let value := List.transpose rawFlow
  if broadcastDimOk value.length (qcopy.length - 1) &&
      broadcastDimOk (colsLen value) (colsLen qcopy) then
    let _updatedCopy :=
      qcopy.headD [] :: broadcastMat value (qcopy.length - 1) (colsLen qcopy)
    match qinitVals with
    | some vals =>
      if vals.length ≤ id_len then Except.ok qvarFile
      else Except.error "IndexError: index is out of bounds for axis 0"
    | none => Except.ok qvarFile
  else Except.error "ValueError: could not broadcast input array"

/-- Modelled from the spec's words (§8, round-trip): from a time-major
raw matrix, the output row of identifier `i` is the initial flow for
`i` (0 when no initial-flow file is given) followed by the raw values
of `i` at time steps `1..T`. -/
def spec_converted_flow (rawTimeMajor : List (List ℚ))
    (qinitVals : Option (List ℚ)) : List (List ℚ) :=
  (List.transpose rawTimeMajor).enum.map
    (fun p => (qinitVals.getD []).getD p.1 0 :: p.2)

/-- One data row of the `comid_lat_lon_z` lookup CSV:
(COMID, latitude, longitude, elevation). -/
abbrev LookupRow := Int × ℚ × ℚ × ℚ

/-- The running min/max accumulators of `_write_comid_lat_lon_z`. -/
structure GeoMinMax where
  lat_min : Option ℚ
  lat_max : Option ℚ
  lon_min : Option ℚ
  lon_max : Option ℚ
  z_min : Option ℚ
  z_max : Option ℚ

/-- `if cur is None or x < cur: cur = x`. -/
def optMinUpd (cur : Option ℚ) (x : ℚ) : Option ℚ :=
  match cur with
  | none => some x
  | some m => if x < m then some x else some m

/-- `if cur is None or x > cur: cur = x`. -/
def optMaxUpd (cur : Option ℚ) (x : ℚ) : Option ℚ :=
  match cur with
  | none => some x
  | some m => if x > m then some x else some m

/-- The exception message produced when a COMID is absent from the
lookup table: the `except` branch calls `log(msg, 'ERROR')` and `log`
raises `Exception("ERROR: " + msg)` for that severity ("misssing" is
the source's spelling). -/
def comidMissMsg (c : Int) : String :=
  "ERROR: COMID " ++ toString c ++ " misssing in comid_lat_lon_z file"

/-- The per-identifier loop of `_write_comid_lat_lon_z` (lines
302-329): for each output identifier (in order) the first matching
lookup row is found; a miss raises via `log(..., 'ERROR')`, aborting
the loop; a hit writes lat/lon/z at the identifier's position and
folds the min/max accumulators. -/
def comidLoop (rows : List LookupRow) :
    List Int → Nat → List ℚ → List ℚ → List ℚ → GeoMinMax →
    Except String (List ℚ × List ℚ × List ℚ × GeoMinMax)
  | [], _, lats, lons, zs, mm => Except.ok (lats, lons, zs, mm)
  | c :: rest, idx, lats, lons, zs, mm =>
    match rows.find? (fun r => r.1 == c) with
    | none => Except.error (comidMissMsg c)
    | some r =>
      comidLoop rows rest (idx + 1)
        (lats.set idx r.2.1) (lons.set idx r.2.2.1) (zs.set idx r.2.2.2)
        { lat_min := optMinUpd mm.lat_min r.2.1
          lat_max := optMaxUpd mm.lat_max r.2.1
          lon_min := optMinUpd mm.lon_min r.2.2.1
          lon_max := optMaxUpd mm.lon_max r.2.2.1
          z_min := optMinUpd mm.z_min r.2.2.2
          z_max := optMaxUpd mm.z_max r.2.2.2 }

/-- The netCDF fill value of the `lat`, `lon` and `z` variables
(`fill_value=-9999.0`). -/
def coordFill : ℚ := -9999

/-- Models `_write_comid_lat_lon_z` (lines 272-350): with no lookup
file the coordinate arrays keep their fill values and only an INFO
message is printed; with a lookup file the per-identifier loop runs on
the fill-valued arrays and empty accumulators. -/
def write_comid_lat_lon_z (rowsOpt : Option (List LookupRow))
    (ncComids : List Int) :
    Except String (List ℚ × List ℚ × List ℚ × GeoMinMax) :=
  match rowsOpt with
  | none =>
    Except.ok (List.replicate ncComids.length coordFill,
      List.replicate ncComids.length coordFill,
      List.replicate ncComids.length coordFill,
      ⟨none, none, none, none, none, none⟩)
  | some rows =>
    comidLoop rows ncComids 0
      (List.replicate ncComids.length coordFill)
      (List.replicate ncComids.length coordFill)
      (List.replicate ncComids.length coordFill)
      ⟨none, none, none, none, none, none⟩

/-- Python attribute lookup on an instance dictionary restricted to the
integer-valued attributes relevant here. -/
def getattrInt (attrs : List (String × Int)) (name : String) :
    Except String Int :=
  match attrs.lookup name with
  | some v => Except.ok v
  | none => Except.error ("AttributeError: " ++ name)

/-- The integer-valued instance attributes set by
`ConvertRAPIDOutputToCF.__init__` (lines 94-103) that the time-axis
fragment touches: the start instant is stored under the name
`start_datetime` (as epoch seconds here) and the step under
`time_step`.  No attribute named `start_date` is ever set. -/
def rapidConvAttrs (startSecs timeStep : Int) : List (String × Int) :=
  [("start_datetime", startSecs), ("time_step", timeStep)]

/-- The time-axis fragment of `convert` (lines 397-408):
`total_seconds = self.time_step * time_len`, the start offset is taken
from `self.start_date`, `secs_end = secs_start + total_seconds`, and
the variable is filled with
`np.arange(secs_start, secs_end, self.time_step)`. -/
def convert_write_times (attrs : List (String × Int)) (time_len : Nat) :
    Except String (List Int) := do
  let time_step ← getattrInt attrs "time_step"
  let start_date ← getattrInt attrs "start_date"
  let total_seconds := time_step * (time_len : Int)
  let secs_start := start_date
  let secs_end := secs_start + total_seconds
  npArange secs_start secs_end time_step

/-- The filesystem-and-input state over which `convert` runs. -/
structure ConvFS where
  rawExists : Bool
  rawValid : Bool
  rawTimeLen : Nat
  rawIdLen : Nat
  rawIds : List Int
  rawFlow : List (List ℚ)
  lookupRows : Option (List LookupRow)
  qinitVals : Option (List ℚ)
  cfExists : Bool

/-- The steps of `convert` at which an exception can surface. -/
inductive ConvStep
  | validate
  | initOutputCall
  | writeTimes
  | writeComidLatLonZ
  | copyStreamflow
deriving DecidableEq

/-- `_initialize_output` (line 160) takes four arguments besides
`self`: `id_dim_name`, `time_len`, `id_len`, `time_step_seconds`. -/
def initOutputParamCount : Nat := 4

/-- The call in `convert` (line 395) is
`self._initialize_output(time_len, id_len)`: two arguments. -/
def convertInitOutputArgCount : Nat := 2

/-- The message of the resulting arity failure. -/
def initOutputTypeErrorMsg : String :=
  "TypeError: _initialize_output() takes exactly 5 arguments (3 given)"

/-- The tail of `convert` after the time axis would have been written
(lines 410-433): write the identifier array, run
`_write_comid_lat_lon_z`, run `_copy_streamflow_values`, then commit
(close both stores, remove the raw file ignoring `OSError`, and rename
the `_CF` file onto the raw path). -/
def convertAfterTimes (fs1 : ConvFS) : ConvFS × Option (ConvStep × String) :=
  match write_comid_lat_lon_z fs1.lookupRows fs1.rawIds with
  | Except.error e => (fs1, some (ConvStep.writeComidLatLonZ, e))
  | Except.ok _ =>
    match copy_streamflow_values fs1.rawIdLen (fs1.rawTimeLen + 1)
        fs1.rawFlow fs1.qinitVals with
    | Except.error e => (fs1, some (ConvStep.copyStreamflow, e))
    | Except.ok _ =>
      ({ fs1 with rawExists := true, cfExists := false }, none)

/-- The `try` block of `convert` (lines 384-434): validate the raw
store (`_validate_raw_nc`), call `_initialize_output` — which supplies
two arguments to a four-argument method and therefore raises a
`TypeError` before the method body (and hence the creation of the
output store) can run — then write the time axis and continue.  The
output store flag is set exactly where `Dataset(cf_file, 'w')` would
execute, inside a successfully entered `_initialize_output`. -/
def convertTry (startSecs timeStep : Int) (fs : ConvFS) :
    ConvFS × Option (ConvStep × String) :=
  if !fs.rawExists then
    (fs, some (ConvStep.validate, "RuntimeError: No such file or directory"))
  else if !fs.rawValid then
    (fs, some (ConvStep.validate,
      "Exception: missing required dimension or variable"))
  else if convertInitOutputArgCount = initOutputParamCount then
    let fs1 := { fs with cfExists := true }
    match convert_write_times (rapidConvAttrs startSecs timeStep)
        (fs.rawTimeLen + 1) with
    | Except.error e => (fs1, some (ConvStep.writeTimes, e))
    | Except.ok _ => convertAfterTimes fs1
  else (fs, some (ConvStep.initOutputCall, initOutputTypeErrorMsg))

/-- `convert` (lines 379-441): run the `try` block; on any exception
the handler removes the partially written `_CF` file (ignoring
`OSError` when it does not exist) and then re-raises through
`log('Conversion Error %s' % e, 'ERROR')`. -/
def convert (startSecs timeStep : Int) (fs : ConvFS) :
    ConvFS × Option (ConvStep × String) :=
  match convertTry startSecs timeStep fs with
  | (fs1, none) => (fs1, none)
  | (fs1, some (step, e)) =>
    ({ fs1 with cfExists := false },
      some (step, "ERROR: Conversion Error " ++ e))

/-! ### `rapid.py`: reindexing, qinit generation, comparison -/

/-- The exception message of `generate_qinit_from_past_qout`
(line 417) for an identifier missing from the connectivity list. -/
def qinitMissMsg (rid : Int) : String :=
  "riv bas id " ++ toString rid ++ " not found in connectivity list."

/-- The reordering loop of `generate_qinit_from_past_qout`
(lines 412-417): for each output-store identifier (paired with its
last-time-step flow value), find its first position in the
connectivity id array and write the value there; a missing identifier
raises the descriptive exception above, so nothing is written. -/
def qinitLoop (streamIds : List Int) :
    List (Int × ℚ) → List ℚ → Except String (List ℚ)
  | [], acc => Except.ok acc
  | (rid, v) :: rest, acc =>
    match npWhereFirst streamIds rid with
    | some i => qinitLoop streamIds rest (acc.set i v)
    | none => Except.error (qinitMissMsg rid)

/-- `generate_qinit_from_past_qout` data phase: a zero array with one
slot per connectivity row, scattered into by the loop above. -/
def generate_qinit_flows (connectIds ncIds : List Int) (vals : List ℚ) :
    Except String (List ℚ) :=
  qinitLoop connectIds (ncIds.zip vals) (List.replicate connectIds.length 0)

/-- The identifier reindexing primitive: for each target identifier in
order, the first position of that identifier in the source sequence,
via `np.where(source == id)[0][0]` as in `compare_qout_files`
(lines 534-537); a missing identifier aborts with the descriptive
error of `generate_qinit_from_past_qout` (line 417), and no partial
result is returned. -/
def reindex (source : List Int) : List Int → Except String (List Nat)
  | [] => Except.ok []
  | t :: rest =>
    match npWhereFirst source t with
    | some i => (reindex source rest).map (fun l => i :: l)
    | none => Except.error (qinitMissMsg t)

/-- The possible outcomes of the identifier-array preamble of
`compare_qout_files` (lines 529-548). -/
inductive CompareHead
  | proceedNoReorder
  | reorder
  | lengthError
deriving DecidableEq

/-- The preamble of `compare_qout_files`: the branch guard is
`not np.unique(c1 != c2).all()`; inside the branch, unequal lengths
raise `Exception("Length of COMID input not the same.")`, and equal
lengths proceed to reorder dataset 2; otherwise the flow values are
compared directly without reordering. -/
def compare_qout_head (c1 c2 : List Int) : CompareHead :=
  if !npUniqueAll (npNeqArr c1 c2) then
    if c1.length ≠ c2.length then CompareHead.lengthError
    else CompareHead.reorder
  else CompareHead.proceedNoReorder

/-! ### Helper lemmas -/

theorem npWhereFirst_some_of_mem {x : Int} :
    ∀ {s : List Int}, x ∈ s → ∃ i, npWhereFirst s x = some i := by
  intro s
  induction s with
  | nil => intro h; cases h
  | cons a tl ih =>
    intro h
    rcases eq_or_ne a x with hax | hax
    · exact ⟨0, by rw [npWhereFirst, if_pos hax]⟩
    · have hx : x ∈ tl := by
        rcases List.mem_cons.mp h with h1 | h1
        · exact absurd h1.symm hax
        · exact h1
      rcases ih hx with ⟨i, hi⟩
      exact ⟨i + 1, by rw [npWhereFirst, if_neg hax, hi]; rfl⟩

theorem getElem?_of_npWhereFirst {x : Int} :
    ∀ {s : List Int} {i : Nat}, npWhereFirst s x = some i → s[i]? = some x := by
  intro s
  induction s with
  | nil => intro i h; cases h
  | cons a tl ih =>
    intro i h
    rw [npWhereFirst] at h
    rcases eq_or_ne a x with hax | hax
    · rw [if_pos hax] at h
      cases h
      simp [hax]
    · rw [if_neg hax] at h
      cases hm : npWhereFirst tl x with
      | none => rw [hm] at h; cases h
      | some j =>
        rw [hm] at h
        injection h with h
        subst h
        rw [List.getElem?_cons_succ]
        exact ih hm

theorem mem_of_npWhereFirst {x : Int} {s : List Int} {i : Nat}
    (h : npWhereFirst s x = some i) : x ∈ s := by
  rcases List.getElem?_eq_some.mp (getElem?_of_npWhereFirst h) with ⟨hlt, heq⟩
  exact heq ▸ List.getElem_mem hlt

theorem reindex_ok_of_subset :
    ∀ (t s : List Int), (∀ x, x ∈ t → x ∈ s) →
      reindex s t = Except.ok (t.map (fun x => (npWhereFirst s x).getD 0)) := by
  intro t
  induction t with
  | nil => intro s _; rfl
  | cons b rest ih =>
    intro s hsub
    rcases npWhereFirst_some_of_mem (hsub b (List.mem_cons_self b rest)) with ⟨i, hi⟩
    rw [reindex, hi, ih s (fun x hx => hsub x (List.mem_cons_of_mem b hx))]
    simp [hi, Except.map]

theorem map_npWhereFirst_self :
    ∀ (ids : List Int), ids.Nodup →
      ids.map (fun x => (npWhereFirst ids x).getD 0) = List.range ids.length := by
  intro ids
  induction ids with
  | nil => intro _; rfl
  | cons a tl ih =>
    intro hnd
    have ha : a ∉ tl := (List.nodup_cons.mp hnd).1
    have htl : tl.Nodup := (List.nodup_cons.mp hnd).2
    rw [List.map_cons]
    have h0 : (npWhereFirst (a :: tl) a).getD 0 = 0 := by
      rw [npWhereFirst, if_pos rfl]
      rfl
    have hstep : tl.map (fun x => (npWhereFirst (a :: tl) x).getD 0)
        = tl.map (fun x => (npWhereFirst tl x).getD 0 + 1) := by
      apply List.map_congr_left
      intro x hx
      have hax : a ≠ x := fun e => ha (e ▸ hx)
      rcases npWhereFirst_some_of_mem hx with ⟨j, hj⟩
      rw [npWhereFirst, if_neg hax, hj]
      rfl
    have hcomp : tl.map (fun x => (npWhereFirst tl x).getD 0 + 1)
        = (tl.map (fun x => (npWhereFirst tl x).getD 0)).map (fun n => n + 1) := by
      rw [List.map_map]
      rfl
    rw [h0, hstep, hcomp, ih htl, List.length_cons, List.range_succ_eq_map]

theorem qinitLoop_length {s : List Int} :
    ∀ (pairs : List (Int × ℚ)) (acc l : List ℚ),
      qinitLoop s pairs acc = Except.ok l → l.length = acc.length := by
  intro pairs
  induction pairs with
  | nil => intro acc l h; cases h; rfl
  | cons q rest ih =>
    intro acc l h
    rcases q with ⟨rid, v⟩
    rw [qinitLoop] at h
    cases hm : npWhereFirst s rid with
    | none => rw [hm] at h; cases h
    | some i =>
      rw [hm] at h
      rw [ih (acc.set i v) l h, List.length_set]

theorem qinitLoop_ok_exists {s : List Int} :
    ∀ (pairs : List (Int × ℚ)) (acc : List ℚ),
      (∀ pr, pr ∈ pairs → pr.1 ∈ s) →
      ∃ l, qinitLoop s pairs acc = Except.ok l := by
  intro pairs
  induction pairs with
  | nil => intro acc _; exact ⟨acc, rfl⟩
  | cons q rest ih =>
    intro acc hmem
    rcases q with ⟨rid, v⟩
    rcases npWhereFirst_some_of_mem
      (hmem (rid, v) (List.mem_cons_self (rid, v) rest)) with ⟨i, hi⟩
    rcases ih (acc.set i v)
      (fun pr hpr => hmem pr (List.mem_cons_of_mem (rid, v) hpr)) with ⟨l, hl⟩
    exact ⟨l, by rw [qinitLoop, hi]; exact hl⟩

theorem qinitLoop_get_untouched {s : List Int} :
    ∀ (pairs : List (Int × ℚ)) (acc l : List ℚ) (p : Nat),
      qinitLoop s pairs acc = Except.ok l →
      (∀ pr, pr ∈ pairs → npWhereFirst s pr.1 ≠ some p) →
      l[p]? = acc[p]? := by
  intro pairs
  induction pairs with
  | nil => intro acc l p h _; cases h; rfl
  | cons q rest ih =>
    intro acc l p h hnt
    rcases q with ⟨rid, v⟩
    rw [qinitLoop] at h
    cases hm : npWhereFirst s rid with
    | none => rw [hm] at h; cases h
    | some i =>
      rw [hm] at h
      have hip : i ≠ p := fun e =>
        hnt (rid, v) (List.mem_cons_self (rid, v) rest) (e ▸ hm)
      rw [ih (acc.set i v) l p h
        (fun pr hpr => hnt pr (List.mem_cons_of_mem (rid, v) hpr))]
      exact List.getElem?_set_ne hip

theorem qinitLoop_error_exists {s : List Int} :
    ∀ (pairs : List (Int × ℚ)) (acc : List ℚ) (x : Int),
      x ∈ pairs.map Prod.fst → x ∉ s →
      ∃ e, qinitLoop s pairs acc = Except.error e := by
  intro pairs
  induction pairs with
  | nil => intro acc x hx _; cases hx
  | cons q rest ih =>
    intro acc x hx hxs
    rcases q with ⟨rid, v⟩
    cases hm : npWhereFirst s rid with
    | none => exact ⟨qinitMissMsg rid, by rw [qinitLoop, hm]⟩
    | some i =>
      have hxrest : x ∈ rest.map Prod.fst := by
        rw [List.map_cons] at hx
        rcases List.mem_cons.mp hx with h1 | h1
        · exact absurd (h1 ▸ mem_of_npWhereFirst hm) hxs
        · exact h1
      rcases ih (acc.set i v) x hxrest hxs with ⟨e, he⟩
      exact ⟨e, by rw [qinitLoop, hm]; exact he⟩

theorem qinitLoop_get_of_mem {s : List Int} :
    ∀ (pairs : List (Int × ℚ)) (acc l : List ℚ) (rid : Int) (v : ℚ) (p : Nat),
      (pairs.map Prod.fst).Nodup → (rid, v) ∈ pairs →
      npWhereFirst s rid = some p → p < acc.length →
      qinitLoop s pairs acc = Except.ok l → l[p]? = some v := by
  intro pairs
  induction pairs with
  | nil => intro acc l rid v p _ hmem _ _ _; cases hmem
  | cons q rest ih =>
    intro acc l rid v p hnd hmem hwh hp h
    rcases q with ⟨b, w⟩
    rw [List.map_cons, List.nodup_cons] at hnd
    rw [qinitLoop] at h
    cases hm : npWhereFirst s b with
    | none => rw [hm] at h; cases h
    | some i =>
      rw [hm] at h
      rcases List.mem_cons.mp hmem with hEq | hRest
      · have hb : rid = b := congrArg Prod.fst hEq
        have hv : v = w := congrArg Prod.snd hEq
        subst hb; subst hv
        have hip : i = p := by
          rw [hwh] at hm
          injection hm with hm
          exact hm.symm
        subst hip
        have hnotouch : ∀ pr, pr ∈ rest → npWhereFirst s pr.1 ≠ some i := by
          intro pr hpr hcontra
          have h1 : s[i]? = some pr.1 := getElem?_of_npWhereFirst hcontra
          have h2 : s[i]? = some rid := getElem?_of_npWhereFirst hwh
          have hpb : pr.1 = rid := Option.some.inj (h1.symm.trans h2)
          have hmem2 : pr.1 ∈ rest.map Prod.fst := List.mem_map_of_mem Prod.fst hpr
          rw [hpb] at hmem2
          exact hnd.1 hmem2
        rw [qinitLoop_get_untouched rest (acc.set i v) l i h hnotouch]
        exact List.getElem?_set_self hp
      · exact ih (acc.set i w) l rid v p hnd.2 hRest hwh
          (by rw [List.length_set]; exact hp) h

theorem comidLoop_error_exists (rows : List LookupRow) :
    ∀ (ncComids : List Int) (idx : Nat) (lats lons zs : List ℚ)
      (mm : GeoMinMax) (c : Int),
      c ∈ ncComids → rows.find? (fun r => r.1 == c) = none →
      ∃ m, m ∈ ncComids ∧ rows.find? (fun r => r.1 == m) = none ∧
        comidLoop rows ncComids idx lats lons zs mm
          = Except.error (comidMissMsg m) := by
  intro nc
  induction nc with
  | nil => intro idx lats lons zs mm c hc _; cases hc
  | cons a rest ih =>
    intro idx lats lons zs mm c hc hfind
    cases hfa : rows.find? (fun r => r.1 == a) with
    | none =>
      exact ⟨a, List.mem_cons_self a rest, hfa, by rw [comidLoop, hfa]⟩
    | some r =>
      have hcrest : c ∈ rest := by
        rcases List.mem_cons.mp hc with h1 | h1
        · subst h1; rw [hfind] at hfa; cases hfa
        · exact h1
      rcases ih (idx + 1) (lats.set idx r.2.1) (lons.set idx r.2.2.1)
        (zs.set idx r.2.2.2) _ c hcrest hfind with ⟨m, h1, h2, h3⟩
      exact ⟨m, List.mem_cons_of_mem a h1, h2, by rw [comidLoop, hfa]; exact h3⟩

theorem mapFstZip_sublist :
    ∀ (l : List Int) (r : List ℚ), ((l.zip r).map Prod.fst).Sublist l := by
  intro l
  induction l with
  | nil => intro r; simp
  | cons a tl ih =>
    intro r
    cases r with
    | nil => simp
    | cons b rtl =>
      rw [List.zip_cons_cons, List.map_cons]
      exact List.Sublist.cons₂ a (ih rtl)

theorem npArange_uniform (a s : Int) (L : Nat) (hs : 0 < s) :
    npArange a (a + s * L) s
      = Except.ok ((List.range L).map (fun k => a + k * s)) := by
  have hs0 : s ≠ 0 := ne_of_gt hs
  rw [npArange, if_neg hs0]
  have h1 : a + s * (L : Int) - a = s * (L : Int) := by ring
  rw [h1]
  have h2 : ceilDivInt (s * (L : Int)) s = (L : Int) := by
    rw [ceilDivInt]
    have h3 : -(s * (L : Int)) = (-(L : Int)) * s := by ring
    rw [h3, Int.mul_fdiv_cancel _ hs0]
    ring
  rw [h2]
  have h4 : max 0 ((L : Int)) = (L : Int) := max_eq_right (Int.natCast_nonneg L)
  rw [h4, Int.toNat_natCast]

/-! ### Claim theorems -/

/-- C1.  The round-trip claim fails on the code: at the spec's own
end-to-end example (identifiers `[101, 102, 103]`, time-major raw flow
`[[1, 2, 3], [4, 5, 6]]`, no initial-flow file, so `id_len = 3` and
`time_len = 3`), the expected output rows are
`[[0, 1, 4], [0, 2, 5], [0, 3, 6]]`, but `_copy_streamflow_values`
executes `q_var[:][1:] = raw.transpose()`, which slices the identifier
axis of an in-memory copy and attempts to broadcast a (3, 2) array
into shape (2, 3), raising a `ValueError`; no flow values are written. -/
theorem cf_copy_streamflow_broadcast_bug :
    spec_converted_flow [[1, 2, 3], [4, 5, 6]] none
      = [[0, 1, 4], [0, 2, 5], [0, 3, 6]]
    ∧ copy_streamflow_values 3 3 [[1, 2, 3], [4, 5, 6]] none
      = Except.error "ValueError: could not broadcast input array" :=
  ⟨rfl, rfl⟩

/-- C2.  Rollback as claimed is unreachable: every run of `convert`
fails at validation or at the two-argument call of the four-argument
`_initialize_output` — i.e. before the output store is ever created,
and in particular before populate-streamflow can run — after which the
handler leaves a state whose only change is that no `_CF` file exists
(the raw store fields, in particular, are untouched). -/
theorem convert_rollback_unreachable_cleanup (startSecs timeStep : Int)
    (fs : ConvFS) :
    ∃ step msg,
      convert startSecs timeStep fs
        = ({ fs with cfExists := false }, some (step, msg))
      ∧ (step = ConvStep.validate ∨ step = ConvStep.initOutputCall) := by
  cases hre : fs.rawExists with
  | false =>
    refine ⟨ConvStep.validate,
      "ERROR: Conversion Error " ++ "RuntimeError: No such file or directory",
      ?_, Or.inl rfl⟩
    simp [convert, convertTry, hre]
  | true =>
    cases hrv : fs.rawValid with
    | false =>
      refine ⟨ConvStep.validate,
        "ERROR: Conversion Error "
          ++ "Exception: missing required dimension or variable",
        ?_, Or.inl rfl⟩
      simp [convert, convertTry, hre, hrv]
    | true =>
      refine ⟨ConvStep.initOutputCall,
        "ERROR: Conversion Error " ++ initOutputTypeErrorMsg, ?_, Or.inr rfl⟩
      simp [convert, convertTry, hre, hrv, convertInitOutputArgCount,
        initOutputParamCount]

/-- C3 counterexample.  The claim that a lookup miss is reported but
the run continues is false: with a lookup table containing only 101
and output identifiers `[101, 999]`, the enrichment aborts with the
raising `log(..., 'ERROR')` message naming 999, and no coordinate
arrays are returned or written. -/
theorem write_comid_lat_lon_z_miss_aborts_cex :
    write_comid_lat_lon_z (some [((101 : Int), (35 : ℚ), -90, 100)]) [101, 999]
      = Except.error (comidMissMsg 999) := rfl

/-- C3 amended.  Whenever some output identifier is absent from the
lookup table, spatial-attribute enrichment aborts the conversion with
an error naming a missing identifier (the first one encountered);
nothing is returned. -/
theorem write_comid_lat_lon_z_miss_aborts (rows : List LookupRow)
    (ncComids : List Int) (c : Int) (hc : c ∈ ncComids)
    (hmiss : rows.find? (fun r => r.1 == c) = none) :
    ∃ m, m ∈ ncComids ∧ rows.find? (fun r => r.1 == m) = none ∧
      write_comid_lat_lon_z (some rows) ncComids
        = Except.error (comidMissMsg m) := by
  rcases comidLoop_error_exists rows ncComids 0
    (List.replicate ncComids.length coordFill)
    (List.replicate ncComids.length coordFill)
    (List.replicate ncComids.length coordFill)
    ⟨none, none, none, none, none, none⟩ c hc hmiss with ⟨m, h1, h2, h3⟩
  exact ⟨m, h1, h2, h3⟩

/-- C3 witness for the amended theorem. -/
theorem write_comid_lat_lon_z_miss_aborts_witness :
    ∃ m, m ∈ [(42 : Int), 7]
      ∧ ([((42 : Int), (1 : ℚ), 2, 3)] : List LookupRow).find?
          (fun r => r.1 == m) = none
      ∧ write_comid_lat_lon_z
          (some ([((42 : Int), (1 : ℚ), 2, 3)] : List LookupRow)) [42, 7]
        = Except.error (comidMissMsg m) :=
  write_comid_lat_lon_z_miss_aborts [((42 : Int), (1 : ℚ), 2, 3)] [42, 7] 7
    (by decide) (by decide)

set_option maxRecDepth 100000 in
/-- C4.  The leap policy crashes instead of folding: the epoch offset
951868800 is 2000-03-01 (leap year 2000, `tm_yday = 61 > 60`), where
the code's `var_time.tm_yday -= 1` raises because `struct_time` is
read-only; the non-leap offset 983404800 (2001-03-01, `tm_yday = 60`)
is processed with its unadjusted day-of-year. -/
theorem leap_adjust_readonly_crash :
    gmtimeYearYday 951868800 = (2000, 61)
    ∧ adjusted_yday 951868800 = Except.error readonlyAttrMsg
    ∧ gmtimeYearYday 983404800 = (2001, 60)
    ∧ adjusted_yday 983404800 = Except.ok 60 :=
  ⟨rfl, rfl, rfl, rfl⟩

set_option maxRecDepth 100000 in
/-- C5.  Window membership fails on leap-year steps: the step at epoch
offset 951868800 (2000-03-01) has spec-side leap-adjusted day-of-year
60, which lies in bin 60's window `[57, 63)`, so the claim says it
contributes to bin 60 — but the code's membership test raises the
read-only-attribute error, so the step contributes to nothing (and the
whole bin job dies).  A non-leap step with day-of-year 60 does satisfy
the code's `[d-3, d+3)` test for bin 60. -/
theorem window_membership_leap_crash :
    spec_adjusted_yday 951868800 = 60
    ∧ ((60 : Int) - 3 ≤ 60 ∧ (60 : Int) < 60 + 3)
    ∧ step_in_window 60 951868800 = Except.error readonlyAttrMsg
    ∧ step_in_window 60 983404800 = Except.ok true :=
  ⟨rfl, by decide, rfl, rfl⟩

set_option maxRecDepth 100000 in
/-- C6.  Statistics placement fails on the code: the spec-side
placement puts the day-1 means 7 and 9 of a two-river store at
positions [0, 0] and [1, 0], but the code's
`variables['average_flow'][day_of_year-1] = avg_streamflow_array`
indexes axis 0 — the identifier axis — of the (2, 365) store and so
attempts to broadcast the length-2 statistic array into a length-365
row, raising a `ValueError`. -/
theorem seasonal_write_wrong_axis :
    entry (spec_seasonal_place (seasonal_store 2) 1 [7, 9]) 0 0 = 7
    ∧ entry (spec_seasonal_place (seasonal_store 2) 1 [7, 9]) 1 0 = 9
    ∧ single_seasonal_write (seasonal_store 2) (seasonal_store 2) 1 [7, 9] [1, 2]
      = Except.error "ValueError: could not broadcast input array" :=
  ⟨rfl, rfl, rfl⟩

/-- C7.  The time-axis fragment of `convert` reads `self.start_date`,
but the constructor stores the start instant under `start_datetime`;
for every start value, step and time length the fragment therefore
raises an `AttributeError` and writes no timestamps at all. -/
theorem write_times_start_date_attr_error (startSecs timeStep : Int)
    (time_len : Nat) :
    convert_write_times (rapidConvAttrs startSecs timeStep) time_len
      = Except.error "AttributeError: start_date" := rfl

/-- C8.  Reindexing a sequence of unique identifiers against itself
yields the identity permutation, and any target identifier absent from
the source aborts with the descriptive error naming a missing
identifier — an `Except.error` carrying no partial position list. -/
theorem reindex_identity_and_missing :
    (∀ ids : List Int, ids.Nodup →
      reindex ids ids = Except.ok (List.range ids.length))
    ∧ (∀ s t : List Int, ∀ x, x ∈ t → x ∉ s →
        ∃ m, m ∈ t ∧ m ∉ s ∧ reindex s t = Except.error (qinitMissMsg m)) := by
  constructor
  · intro ids hnd
    rw [reindex_ok_of_subset ids ids (fun x hx => hx),
      map_npWhereFirst_self ids hnd]
  · intro s t
    induction t with
    | nil => intro x hx; cases hx
    | cons b rest ih =>
      intro x hx hxs
      cases hm : npWhereFirst s b with
      | none =>
        refine ⟨b, List.mem_cons_self b rest, ?_, by rw [reindex, hm]⟩
        intro hbs
        rcases npWhereFirst_some_of_mem hbs with ⟨i, hi⟩
        rw [hm] at hi
        cases hi
      | some i =>
        have hxrest : x ∈ rest := by
          rcases List.mem_cons.mp hx with h1 | h1
          · exact absurd (h1 ▸ mem_of_npWhereFirst hm) hxs
          · exact h1
        rcases ih x hxrest hxs with ⟨m, hm1, hm2, hm3⟩
        exact ⟨m, List.mem_cons_of_mem b hm1, hm2,
          by rw [reindex, hm, hm3]; rfl⟩

/-- C8 witness. -/
theorem reindex_identity_and_missing_witness :
    reindex [3, 5, 9] [3, 5, 9] = Except.ok (List.range 3)
    ∧ (∃ m, m ∈ [(3 : Int), 7] ∧ m ∉ ([3] : List Int)
        ∧ reindex [3] [3, 7] = Except.error (qinitMissMsg m)) :=
  ⟨reindex_identity_and_missing.1 [3, 5, 9] (by decide),
    reindex_identity_and_missing.2 [3] [3, 7] 7 (by decide) (by decide)⟩

/-- C9.  The length guard of `compare_qout_files` is dead for arrays
both longer than 1: with COMID arrays `[1, 2]` and `[1, 2, 3]` the
mismatched-shape comparison `c1 != c2` evaluates to the scalar `True`,
so `np.unique(...).all()` is truthy, the negated branch guard is
false, and the function proceeds straight to comparing flow values —
no "Length of COMID input not the same." exception is raised.  The
guard only fires through the length-1 broadcasting quirk (second
conjunct), and — due to the inverted guard — identical equal-length
arrays take the reordering branch (third conjunct). -/
theorem compare_qout_length_guard_dead :
    compare_qout_head [1, 2] [1, 2, 3] = CompareHead.proceedNoReorder
    ∧ compare_qout_head [5] [5, 6, 7] = CompareHead.lengthError
    ∧ compare_qout_head [1, 2, 3] [1, 2, 3] = CompareHead.reorder :=
  ⟨rfl, rfl, rfl⟩

/-- C10.  `generate_qinit_from_past_qout` data phase: (1) on success
the result has exactly one value per connectivity row; (2) when every
output-store identifier appears in the connectivity list the operation
succeeds; (3) a connectivity row whose identifier does not appear in
the output store silently keeps the value 0; (4) an output-store
identifier absent from the connectivity list aborts with an error;
(5) the value paired with an output-store identifier lands at that
identifier's connectivity row, i.e. results are in connectivity row
order. -/
theorem qinit_connectivity_order_zero_fill :
    (∀ (connect ncIds : List Int) (vals : List ℚ) (l : List ℚ),
        generate_qinit_flows connect ncIds vals = Except.ok l →
        l.length = connect.length)
    ∧ (∀ (connect ncIds : List Int) (vals : List ℚ),
        (∀ x, x ∈ ncIds → x ∈ connect) →
        ∃ l, generate_qinit_flows connect ncIds vals = Except.ok l)
    ∧ (∀ (connect ncIds : List Int) (vals : List ℚ) (p : Nat) (cid : Int)
        (l : List ℚ),
        connect[p]? = some cid → cid ∉ ncIds →
        generate_qinit_flows connect ncIds vals = Except.ok l →
        l[p]? = some 0)
    ∧ (∀ (connect ncIds : List Int) (vals : List ℚ) (x : Int),
        x ∈ ncIds → x ∉ connect → ncIds.length ≤ vals.length →
        ∃ e, generate_qinit_flows connect ncIds vals = Except.error e)
    ∧ (∀ (connect ncIds : List Int) (vals : List ℚ) (rid : Int) (v : ℚ)
        (p : Nat) (l : List ℚ),
        ncIds.Nodup → (rid, v) ∈ ncIds.zip vals →
        npWhereFirst connect rid = some p →
        generate_qinit_flows connect ncIds vals = Except.ok l →
        l[p]? = some v) := by
  refine ⟨?_, ?_, ?_, ?_, ?_⟩
  · intro connect ncIds vals l h
    rw [qinitLoop_length (ncIds.zip vals) _ l h, List.length_replicate]
  · intro connect ncIds vals hsub
    apply qinitLoop_ok_exists
    intro pr hpr
    rcases pr with ⟨x, y⟩
    exact hsub x (List.of_mem_zip hpr).1
  · intro connect ncIds vals p cid l hcp hcid h
    have hnt : ∀ pr, pr ∈ ncIds.zip vals →
        npWhereFirst connect pr.1 ≠ some p := by
      intro pr hpr hcontra
      have h1 : connect[p]? = some pr.1 := getElem?_of_npWhereFirst hcontra
      have h2 : pr.1 = cid := Option.some.inj (h1.symm.trans hcp)
      rcases pr with ⟨x, y⟩
      exact hcid (h2 ▸ (List.of_mem_zip hpr).1)
    rw [qinitLoop_get_untouched (ncIds.zip vals) _ l p h hnt]
    have hp : p < connect.length := (List.getElem?_eq_some.mp hcp).1
    rw [List.getElem?_replicate, if_pos hp]
  · intro connect ncIds vals x hx hxc hlen
    apply qinitLoop_error_exists (ncIds.zip vals) _ x _ hxc
    rw [List.map_fst_zip ncIds vals hlen]
    exact hx
  · intro connect ncIds vals rid v p l hnd hmem hwh h
    have hndp : ((ncIds.zip vals).map Prod.fst).Nodup :=
      List.Nodup.sublist (mapFstZip_sublist ncIds vals) hnd
    have hp : p < (List.replicate connect.length (0 : ℚ)).length := by
      rw [List.length_replicate]
      exact (List.getElem?_eq_some.mp (getElem?_of_npWhereFirst hwh)).1
    exact qinitLoop_get_of_mem (ncIds.zip vals) _ l rid v p hndp hmem hwh hp h

/-- C10 witness: connectivity `[5, 6, 7]`, output-store identifiers
`[7, 5]` with last-step values `[3, 2]` produce `[2, 0, 3]` — one
value per connectivity row, the absent identifier 6 zero-filled, value
3 at identifier 7's row — while output identifier 9 absent from
connectivity `[5, 6]` aborts. -/
theorem qinit_connectivity_order_zero_fill_witness :
    ([(2 : ℚ), 0, 3].length = ([(5 : Int), 6, 7]).length)
    ∧ (∃ l, generate_qinit_flows [5, 6, 7] [7, 5] [3, 2] = Except.ok l)
    ∧ (([(2 : ℚ), 0, 3])[1]? = some 0)
    ∧ (∃ e, generate_qinit_flows [5, 6] [9] [1] = Except.error e)
    ∧ (([(2 : ℚ), 0, 3])[2]? = some 3) :=
  ⟨qinit_connectivity_order_zero_fill.1 [5, 6, 7] [7, 5] [3, 2] [2, 0, 3] rfl,
    qinit_connectivity_order_zero_fill.2.1 [5, 6, 7] [7, 5] [3, 2] (by decide),
    qinit_connectivity_order_zero_fill.2.2.1 [5, 6, 7] [7, 5] [3, 2] 1 6
      [2, 0, 3] rfl (by decide) rfl,
    qinit_connectivity_order_zero_fill.2.2.2.1 [5, 6] [9] [1] 9 (by decide)
      (by decide) (by decide),
    qinit_connectivity_order_zero_fill.2.2.2.2 [5, 6, 7] [7, 5] [3, 2] 7 3 2
      [2, 0, 3] (by decide) (by decide) rfl rfl⟩

end RAPIDpy
